import Mathlib

/-!
Verification of the translation-exercise tool (src/main.py).

The program is a Streamlit app: a learner picks a Japanese sentence, types an
English translation, and three buttons (Try / Submit / Finish) drive a small
session-state machine.  The sentence-embedding model is an opaque external
dependency, so it is abstracted as a similarity function
`sim : String → String → ℚ` (the cosine similarity between the embeddings of
the two strings); all similarity values are modelled as rationals.  The Google
Sheet is abstracted as a `SinkResult` describing whether the sheet handle is
available and whether `append_row` succeeds.
-/

/-- A record of `data/translations.json`: a Japanese source sentence, the
primary English translation, and optional alternatives (main.py lines 103,
127: `[entry["english"]] + entry.get("alternatives", [])`). -/
structure Entry where
  japanese : String
  english : String
  alternatives : List String
deriving DecidableEq, Repr

/-- The per-session Streamlit state (main.py lines 81-88): `last_score`,
`last_variant`, `scores`, `attempted_questions`. -/
structure SessionState where
  last_score : Option ℚ
  last_variant : Option String
  scores : List ℚ
  attempted_questions : ℕ
deriving DecidableEq, Repr

/-- The row appended to the spreadsheet at session end
(main.py lines 153-160). -/
structure SubmissionRecord where
  timestamp : String
  learnerName : String
  learnerId : String
  averageScore : String
  passFail : String
  questionCount : ℕ
deriving DecidableEq, Repr

/-- Outcome of the persistence sink for one Finish click: the sheet handle is
`None` (line 148), `append_row` raises (line 165), or the append succeeds. -/
inductive SinkResult where
  | unavailable
  | raises
  | ok
deriving DecidableEq, Repr

/-- main.py line 13: `THRESHOLD = 0.80`, the passing score. -/
def THRESHOLD : ℚ := 0.80

/-- Python considers these characters whitespace for `str.strip()`
(restricted to the ASCII whitespace characters). -/
def isPySpace (c : Char) : Bool :=
  c = ' ' || c = '\t' || c = '\n' || c = '\r' || c = '\x0b' || c = '\x0c'

/-- Model of Python `str.strip()`: drop leading and trailing whitespace. -/
def pyStrip (s : String) : String :=
  ⟨((s.data.dropWhile isPySpace).reverse.dropWhile isPySpace).reverse⟩

/-- `tensor.max()` over a list of similarity values (the list is non-empty in
every call site; on `[]` we return 0, where PyTorch would raise). -/
def listMax : List ℚ → ℚ
  | [] => 0
  | x :: xs => xs.foldl max x

/-- main.py lines 60-66, `compute_score_and_best`: embed the user text and the
variants, take the cosine similarities, and return
`(scores.max(), variants[scores.argmax()])`.  `argmax` of a PyTorch tensor is
the index of the first occurrence of the maximum, modelled by `findIdx`. -/
def compute_score_and_best (sim : String → String → ℚ) (user_text : String)
    (variants : List String) : ℚ × String :=
  let scores := variants.map (sim user_text)
  let best_score := listMax scores
  let best_idx := scores.findIdx (fun s => decide (s = best_score))
  (best_score, variants.getD best_idx "")

/-- The ASCII digit character of `n % 10`. -/
def digitChar10 (n : ℕ) : Char := Char.ofNat (48 + n % 10)

/-- Decimal digits of `n`, most significant first, with explicit fuel. -/
def natReprAux : ℕ → ℕ → List Char
  | 0, _ => []
  | fuel + 1, n => if n < 10 then [digitChar10 n] else natReprAux fuel (n / 10) ++ [digitChar10 n]

/-- Decimal representation of a natural number. -/
def natReprD (n : ℕ) : String := ⟨natReprAux (n + 1) n⟩

/-- Round a rational to the nearest integer, ties to even (the rounding used
by Python float formatting). -/
def roundHalfEven (q : ℚ) : ℤ :=
  let f := ⌊q⌋
  let r := q - f
  if r < 1 / 2 then f else if 1 / 2 < r then f + 1 else if f % 2 = 0 then f else f + 1

/-- Model of the Python format `f"{x:.4f}"` (main.py line 157): the value
rounded to four decimal places (ties to even) and rendered with a sign, an
integer part, a dot, and exactly four fractional digits. -/
def formatFixed4 (q : ℚ) : String :=
  let s := roundHalfEven (q * 10000)
  let a := s.natAbs
  let sign := if s < 0 then "-" else ""
  let frac : String := ⟨[digitChar10 (a / 1000), digitChar10 (a / 100),
                         digitChar10 (a / 10), digitChar10 a]⟩
  (sign ++ natReprD (a / 10000)) ++ "." ++ frac

/-- main.py lines 99-116, the "Try Translation" button.  Returns the new
session state and the displayed verdict: `none` when the input is rejected as
empty, `some true` for the success banner (`best_score >= THRESHOLD`),
`some false` for the warning banner. -/
def tryHandler (sim : String → String → ℚ) (entry : Entry) (user_input : String)
    (st : SessionState) : SessionState × Option Bool :=
  if pyStrip user_input = "" then (st, none)
  else
    let all_variants := entry.english :: entry.alternatives
    let r := compute_score_and_best sim user_input all_variants
    ({ st with last_score := some r.1, last_variant := some r.2,
               attempted_questions := st.attempted_questions + 1 },
     some (decide (THRESHOLD ≤ r.1)))

/-- main.py lines 119-137, the "Submit this translation" button.  Returns the
new session state and the score recorded (displayed at line 133), `none` when
validation rejects the click. -/
def submitHandler (sim : String → String → ℚ) (entry : Entry)
    (student_name student_number user_input : String) (st : SessionState) :
    SessionState × Option ℚ :=
  if pyStrip student_name = "" ∨ pyStrip student_number = "" then (st, none)
  else if pyStrip user_input = "" then (st, none)
  else
    let best_score :=
      match st.last_score with
      | none => (compute_score_and_best sim user_input
                   (entry.english :: entry.alternatives)).1
      | some s => s
    ({ st with scores := st.scores ++ [best_score],
               last_score := none, last_variant := none },
     some best_score)

/-- main.py lines 140-166, the "Finish Session" button.  Returns the new
session state and the record appended to the sheet (`none` when nothing was
appended: validation failure, unavailable sheet, or a raising append). -/
def finishHandler (student_name student_number timestamp : String)
    (sink : SinkResult) (st : SessionState) :
    SessionState × Option SubmissionRecord :=
  if pyStrip student_name = "" ∨ pyStrip student_number = "" then (st, none)
  else if st.scores = [] then (st, none)
  else
    let average_score := st.scores.sum / (st.scores.length : ℚ)
    let number_of_questions := st.scores.length
    match sink with
    | .unavailable => (st, none)
    | .raises => (st, none)
    | .ok =>
      ({ st with scores := [], attempted_questions := 0 },
       some { timestamp := timestamp,
              learnerName := student_name,
              learnerId := student_number,
              averageScore := formatFixed4 average_score,
              passFail := if THRESHOLD ≤ average_score then "Pass" else "Fail",
              questionCount := number_of_questions })

/-- One user-triggered event of a session.  The selected entry may change
between events (the selectbox at line 91). -/
inductive Event where
  | tryE (entry : Entry) (user_input : String)
  | submitE (entry : Entry) (student_name student_number user_input : String)
  | finishE (student_name student_number timestamp : String) (sink : SinkResult)

/-- A session state instrumented with per-session event counts: the number of
accepted try clicks, the number of accepted submit clicks, and the list of
scores those submits appended, all counted since the last successful finish. -/
structure RunAcc where
  st : SessionState
  tries : ℕ
  submits : ℕ
  vals : List ℚ
deriving DecidableEq, Repr

/-- The initial session state (main.py lines 81-88). -/
def initState : SessionState :=
  { last_score := none, last_variant := none, scores := [], attempted_questions := 0 }

/-- The initial instrumented state. -/
def initAcc : RunAcc := { st := initState, tries := 0, submits := 0, vals := [] }

/-- Process one event: dispatch to the handler and update the instrumentation
from the handler's observable outcome. -/
def stepAcc (sim : String → String → ℚ) (acc : RunAcc) : Event → RunAcc
  | .tryE entry u =>
    let r := tryHandler sim entry u acc.st
    match r.2 with
    | some _ => { acc with st := r.1, tries := acc.tries + 1 }
    | none => { acc with st := r.1 }
  | .submitE entry n m u =>
    let r := submitHandler sim entry n m u acc.st
    match r.2 with
    | some v => { acc with st := r.1, submits := acc.submits + 1, vals := acc.vals ++ [v] }
    | none => { acc with st := r.1 }
  | .finishE n m ts sink =>
    let r := finishHandler n m ts sink acc.st
    match r.2 with
    | some _ => { st := r.1, tries := 0, submits := 0, vals := [] }
    | none => { acc with st := r.1 }

/-- Run a whole trace of events from the instrumented initial state. -/
def runSession (sim : String → String → ℚ) (es : List Event) : RunAcc :=
  es.foldl (stepAcc sim) initAcc

/-- main.py line 57: `{entry["japanese"]: entry for entry in translations}` —
a Python dict comprehension inserts the entries left to right, each insertion
overwriting any earlier one with the same key. -/
def japanese_to_entry (translations : List Entry) : String → Option Entry :=
  translations.foldl
    (fun m e => fun k => if k = e.japanese then some e else m k)
    (fun _ => none)

/-- A concrete similarity function used as a test fixture in witnesses:
variants "b" and "c" tie at similarity 2, everything else scores 1. -/
def simDemo : String → String → ℚ :=
  fun _ v => if v = "b" then 2 else if v = "c" then 2 else 1

/-- The score a valid Submit click records: the cached score when one exists,
otherwise a fresh computation (main.py lines 126-130). -/
def submittedScore (sim : String → String → ℚ) (entry : Entry) (u : String)
    (st : SessionState) : ℚ :=
  match st.last_score with
  | none => (compute_score_and_best sim u (entry.english :: entry.alternatives)).1
  | some s => s

/-- A concrete session state with one recorded score, used by witnesses. -/
def stDemo : SessionState :=
  { last_score := none, last_variant := none, scores := [9/10], attempted_questions := 0 }

/-- The session state after the single demo submit: one recorded score of 2. -/
def stDemo2 : SessionState :=
  { last_score := none, last_variant := none, scores := [2], attempted_questions := 0 }

/-- The session-state invariant tying the state to the per-session event
counts: `scores` is exactly the list of values the accepted submits appended,
`attempted_questions` counts the accepted tries, and one value was appended
per accepted submit. -/
def accInv (acc : RunAcc) : Prop :=
  acc.st.scores = acc.vals ∧
  acc.st.attempted_questions = acc.tries ∧
  acc.vals.length = acc.submits

lemma le_foldl_max (xs : List ℚ) (a : ℚ) : a ≤ xs.foldl max a := by
  induction xs generalizing a with
  | nil => exact le_refl a
  | cons y ys ih => exact le_trans (le_max_left a y) (ih (max a y))

lemma mem_le_foldl_max (xs : List ℚ) (a x : ℚ) (hx : x ∈ xs) : x ≤ xs.foldl max a := by
  induction xs generalizing a with
  | nil => cases hx
  | cons y ys ih =>
    rcases List.mem_cons.mp hx with h | h
    · subst h
      exact le_trans (le_max_right a x) (le_foldl_max ys (max a x))
    · exact ih (max a y) h

lemma le_listMax (l : List ℚ) (x : ℚ) (hx : x ∈ l) : x ≤ listMax l := by
  cases l with
  | nil => cases hx
  | cons y ys =>
    rcases List.mem_cons.mp hx with h | h
    · subst h; exact le_foldl_max ys x
    · exact mem_le_foldl_max ys y x h

lemma foldl_max_mem (xs : List ℚ) (a : ℚ) : xs.foldl max a = a ∨ xs.foldl max a ∈ xs := by
  induction xs generalizing a with
  | nil => exact Or.inl rfl
  | cons y ys ih =>
    rcases ih (max a y) with h | h
    · rcases max_choice a y with hm | hm
      · exact Or.inl (by rw [List.foldl_cons, h, hm])
      · exact Or.inr (by rw [List.foldl_cons, h, hm]; exact List.mem_cons_self y ys)
    · exact Or.inr (List.mem_cons_of_mem y h)

lemma listMax_mem (l : List ℚ) (h : l ≠ []) : listMax l ∈ l := by
  cases l with
  | nil => exact absurd rfl h
  | cons y ys =>
    rcases foldl_max_mem ys y with h1 | h1
    · rw [listMax, h1]; exact List.mem_cons_self y ys
    · exact List.mem_cons_of_mem y h1

/-- C1: for a non-empty variants list, the scorer returns the maximum cosine
similarity as bestScore and, as bestVariant, the first element of the variants
list achieving that maximum (stable argmax). -/
theorem compute_score_correct (sim : String → String → ℚ) (c : String)
    (variants : List String) (hne : variants ≠ []) :
    (∀ v ∈ variants, sim c v ≤ (compute_score_and_best sim c variants).1) ∧
    ∃ i, ∃ hi : i < variants.length,
      (compute_score_and_best sim c variants).2 = variants.get ⟨i, hi⟩ ∧
      sim c (variants.get ⟨i, hi⟩) = (compute_score_and_best sim c variants).1 ∧
      ∀ j (hj : j < variants.length), j < i →
        sim c (variants.get ⟨j, hj⟩) < (compute_score_and_best sim c variants).1 := by
  have hfst : (compute_score_and_best sim c variants).1
      = listMax (variants.map (sim c)) := rfl
  set scores := variants.map (sim c) with hscores
  have hsne : scores ≠ [] := by
    simpa [hscores] using hne
  have hmem : listMax scores ∈ scores := listMax_mem scores hsne
  have hex : ∃ x ∈ scores, decide (x = listMax scores) = true :=
    ⟨listMax scores, hmem, by simp⟩
  have hlt : scores.findIdx (fun s => decide (s = listMax scores)) < scores.length :=
    List.findIdx_lt_length_of_exists hex
  have hlen : scores.length = variants.length := by simp [hscores]
  set i := scores.findIdx (fun s => decide (s = listMax scores)) with hi_def
  have hiv : i < variants.length := hlen ▸ hlt
  constructor
  · intro v hv
    rw [hfst]
    exact le_listMax scores (sim c v) (by simp [hscores]; exact ⟨v, hv, rfl⟩)
  · refine ⟨i, hiv, ?_, ?_, ?_⟩
    · show variants.getD i "" = variants.get ⟨i, hiv⟩
      rw [List.getD_eq_getElem?_getD, List.getElem?_eq_getElem hiv]
      rfl
    · have hp : (fun s => decide (s = listMax scores)) (scores.get ⟨i, hlt⟩) = true := by
        have := @List.findIdx_getElem _ (fun s => decide (s = listMax scores)) scores hlt
        simpa [hi_def] using this
      have : scores.get ⟨i, hlt⟩ = listMax scores := by simpa using hp
      rw [hfst]
      rw [← this]
      show sim c (variants.get ⟨i, hiv⟩) = scores.get ⟨i, hlt⟩
      simp [hscores]
    · intro j hj hji
      have hjs : j < scores.length := hlen ▸ hj
      have hnp := @List.not_of_lt_findIdx _ (fun s => decide (s = listMax scores))
        scores j (hi_def ▸ hji)
      have hne2 : scores.get ⟨j, hjs⟩ ≠ listMax scores := by
        intro hcontra
        rw [List.get_eq_getElem] at hcontra
        rw [hcontra] at hnp
        simp at hnp
      have hle : scores.get ⟨j, hjs⟩ ≤ listMax scores :=
        le_listMax scores _ (List.get_mem scores j hjs)
      have hval : scores.get ⟨j, hjs⟩ = sim c (variants.get ⟨j, hj⟩) := by
        simp [hscores]
      rw [hfst, ← hval]
      exact lt_of_le_of_ne hle hne2



/-- Witness for C1 at a concrete input with a tie between "b" and "c". -/
theorem compute_score_correct_witness :
    (["a", "b", "c"] : List String) ≠ [] ∧
    ((∀ v ∈ ["a", "b", "c"], simDemo "x" v ≤ (compute_score_and_best simDemo "x" ["a", "b", "c"]).1) ∧
     ∃ i, ∃ hi : i < (["a", "b", "c"] : List String).length,
       (compute_score_and_best simDemo "x" ["a", "b", "c"]).2
         = (["a", "b", "c"] : List String).get ⟨i, hi⟩ ∧
       simDemo "x" ((["a", "b", "c"] : List String).get ⟨i, hi⟩)
         = (compute_score_and_best simDemo "x" ["a", "b", "c"]).1 ∧
       ∀ j (hj : j < (["a", "b", "c"] : List String).length), j < i →
         simDemo "x" ((["a", "b", "c"] : List String).get ⟨j, hj⟩)
           < (compute_score_and_best simDemo "x" ["a", "b", "c"]).1) :=
  ⟨by decide, compute_score_correct simDemo "x" ["a", "b", "c"] (by decide)⟩

lemma tryHandler_of_empty (sim : String → String → ℚ) (entry : Entry) (u : String)
    (st : SessionState) (h : pyStrip u = "") : tryHandler sim entry u st = (st, none) := by
  simp [tryHandler, h]

lemma submitHandler_of_invalid (sim : String → String → ℚ) (entry : Entry)
    (n m u : String) (st : SessionState)
    (h : pyStrip n = "" ∨ pyStrip m = "" ∨ pyStrip u = "") :
    submitHandler sim entry n m u st = (st, none) := by
  by_cases h1 : pyStrip n = "" ∨ pyStrip m = ""
  · simp [submitHandler, h1]
  · rcases h with h | h | h
    · exact absurd (Or.inl h) h1
    · exact absurd (Or.inr h) h1
    · simp [submitHandler, h1, h]

lemma finishHandler_of_invalid (n m ts : String) (sink : SinkResult) (st : SessionState)
    (h : pyStrip n = "" ∨ pyStrip m = "" ∨ st.scores = []) :
    finishHandler n m ts sink st = (st, none) := by
  by_cases h1 : pyStrip n = "" ∨ pyStrip m = ""
  · simp [finishHandler, h1]
  · rcases h with h | h | h
    · exact absurd (Or.inl h) h1
    · exact absurd (Or.inr h) h1
    · simp [finishHandler, h1, h]



lemma submitHandler_of_valid (sim : String → String → ℚ) (entry : Entry)
    (n m u : String) (st : SessionState)
    (hn : pyStrip n ≠ "") (hm : pyStrip m ≠ "") (hu : pyStrip u ≠ "") :
    submitHandler sim entry n m u st =
      ({ st with scores := st.scores ++ [submittedScore sim entry u st],
                 last_score := none, last_variant := none },
       some (submittedScore sim entry u st)) := by
  simp [submitHandler, submittedScore, hn, hm, hu]

lemma finishHandler_fail (n m ts : String) (sink : SinkResult) (st : SessionState)
    (hs : sink = SinkResult.unavailable ∨ sink = SinkResult.raises) :
    finishHandler n m ts sink st = (st, none) := by
  by_cases h1 : pyStrip n = "" ∨ pyStrip m = ""
  · simp [finishHandler, h1]
  · by_cases h2 : st.scores = []
    · simp [finishHandler, h1, h2]
    · rcases hs with h | h <;> subst h <;> simp [finishHandler, h1, h2]

lemma finishHandler_ok (n m ts : String) (st : SessionState)
    (hn : pyStrip n ≠ "") (hm : pyStrip m ≠ "") (hs : st.scores ≠ []) :
    finishHandler n m ts SinkResult.ok st =
      ({ st with scores := [], attempted_questions := 0 },
       some { timestamp := ts,
              learnerName := n,
              learnerId := m,
              averageScore := formatFixed4 (st.scores.sum / (st.scores.length : ℚ)),
              passFail := if THRESHOLD ≤ st.scores.sum / (st.scores.length : ℚ)
                          then "Pass" else "Fail",
              questionCount := st.scores.length }) := by
  simp [finishHandler, hn, hm, hs]

lemma finishHandler_some (n m ts : String) (sink : SinkResult) (st : SessionState)
    (r : SubmissionRecord) (h : (finishHandler n m ts sink st).2 = some r) :
    pyStrip n ≠ "" ∧ pyStrip m ≠ "" ∧ st.scores ≠ [] ∧ sink = SinkResult.ok := by
  by_cases h1 : pyStrip n = "" ∨ pyStrip m = ""
  · rw [finishHandler_of_invalid n m ts sink st (by tauto)] at h; simp at h
  · by_cases h2 : st.scores = []
    · rw [finishHandler_of_invalid n m ts sink st (by tauto)] at h; simp at h
    · push_neg at h1
      cases sink with
      | unavailable => rw [finishHandler_fail n m ts _ st (by tauto)] at h; simp at h
      | raises => rw [finishHandler_fail n m ts _ st (by tauto)] at h; simp at h
      | ok => exact ⟨h1.1, h1.2, h2, rfl⟩

lemma formatFixed4_nine_tenths : formatFixed4 ((9:ℚ)/10) = "0.9000" := by
  have h1 : roundHalfEven ((9:ℚ)/10 * 10000) = 9000 := by
    rw [roundHalfEven]
    norm_num
  rw [formatFixed4, h1]
  norm_num [natReprD, natReprAux, digitChar10]
  decide



lemma finish_demo_eval : finishHandler "a" "1" "t" SinkResult.ok stDemo =
    (initState, some { timestamp := "t", learnerName := "a", learnerId := "1",
                       averageScore := "0.9000", passFail := "Pass", questionCount := 1 }) := by
  rw [finishHandler_ok "a" "1" "t" stDemo (by decide) (by decide) (by simp [stDemo])]
  have havg : stDemo.scores.sum / (stDemo.scores.length : ℚ) = (9:ℚ)/10 := by
    simp [stDemo]
  rw [havg, formatFixed4_nine_tenths,
      if_pos (by norm_num [THRESHOLD] : THRESHOLD ≤ (9:ℚ)/10)]
  simp [stDemo, initState]

lemma try_demo_eval : tryHandler simDemo ⟨"j", "b", []⟩ "x" initState =
    ({ initState with last_score := some 2, last_variant := some "b",
                      attempted_questions := 1 }, some true) := by
  have hc : compute_score_and_best simDemo "x"
      ((⟨"j", "b", []⟩ : Entry).english :: (⟨"j", "b", []⟩ : Entry).alternatives)
      = (2, "b") := by
    simp [compute_score_and_best, listMax, simDemo, List.findIdx_cons]
  have hd : decide (THRESHOLD ≤ (2:ℚ)) = true := by
    simp only [decide_eq_true_eq]
    norm_num [THRESHOLD]
  simp [tryHandler, (by decide : ¬(pyStrip "x" = "")), hc, hd, initState]

/-- C7: a validation failure (missing learner identity on Submit or Finish,
empty candidate text on Try or Submit, empty scores on Finish) leaves the
whole session state unchanged, appends no record, and stays in the current
state. -/
theorem validation_failure_no_change :
    (∀ sim entry u st, pyStrip u = "" → tryHandler sim entry u st = (st, none)) ∧
    (∀ sim entry n m u st, pyStrip n = "" ∨ pyStrip m = "" ∨ pyStrip u = "" →
       submitHandler sim entry n m u st = (st, none)) ∧
    (∀ n m ts sink st, pyStrip n = "" ∨ pyStrip m = "" ∨ st.scores = [] →
       finishHandler n m ts sink st = (st, none)) :=
  ⟨fun sim entry u st h => tryHandler_of_empty sim entry u st h,
   fun sim entry n m u st h => submitHandler_of_invalid sim entry n m u st h,
   fun n m ts sink st h => finishHandler_of_invalid n m ts sink st h⟩

/-- Witness for C7 at concrete inputs (empty candidate text). -/
theorem validation_failure_no_change_witness :
    pyStrip "" = "" ∧ tryHandler simDemo ⟨"j", "a", []⟩ "" initState = (initState, none) :=
  ⟨by decide, validation_failure_no_change.1 simDemo ⟨"j", "a", []⟩ "" initState (by decide)⟩

/-- C2: if Finish appends a record, the session is reset (`scores = []`,
`attemptedCount = 0`); if the sink is unavailable or the append raises, the
whole state is unchanged and nothing is appended. -/
theorem finish_reset_or_preserve (n m ts : String) (sink : SinkResult) (st : SessionState) :
    (∀ r, (finishHandler n m ts sink st).2 = some r →
       (finishHandler n m ts sink st).1.scores = [] ∧
       (finishHandler n m ts sink st).1.attempted_questions = 0) ∧
    (sink = SinkResult.unavailable ∨ sink = SinkResult.raises →
       (finishHandler n m ts sink st).1 = st ∧ (finishHandler n m ts sink st).2 = none) := by
  constructor
  · intro r hr
    obtain ⟨hn, hm, hs, hok⟩ := finishHandler_some n m ts sink st r hr
    subst hok
    rw [finishHandler_ok n m ts st hn hm hs]
    exact ⟨rfl, rfl⟩
  · intro hs
    rw [finishHandler_fail n m ts sink st hs]
    exact ⟨rfl, rfl⟩

/-- Witness for C2 at a concrete state with one recorded score. -/
theorem finish_reset_or_preserve_witness :
    ((finishHandler "a" "1" "t" SinkResult.ok stDemo).2
      = some { timestamp := "t", learnerName := "a", learnerId := "1",
               averageScore := "0.9000", passFail := "Pass", questionCount := 1 }) ∧
    ((finishHandler "a" "1" "t" SinkResult.ok stDemo).1.scores = [] ∧
     (finishHandler "a" "1" "t" SinkResult.ok stDemo).1.attempted_questions = 0) :=
  ⟨by rw [finish_demo_eval],
   (finish_reset_or_preserve "a" "1" "t" SinkResult.ok stDemo).1
     { timestamp := "t", learnerName := "a", learnerId := "1",
       averageScore := "0.9000", passFail := "Pass", questionCount := 1 }
     (by rw [finish_demo_eval])⟩

/-- C3: Try never mutates `scores`; a valid Submit appends exactly one value
to `scores` and changes nothing else in it. -/
theorem try_submit_scores_frame :
    (∀ sim entry u st, (tryHandler sim entry u st).1.scores = st.scores) ∧
    (∀ sim entry n m u st, pyStrip n ≠ "" → pyStrip m ≠ "" → pyStrip u ≠ "" →
       (submitHandler sim entry n m u st).1.scores
         = st.scores ++ [submittedScore sim entry u st]) := by
  constructor
  · intro sim entry u st
    by_cases h : pyStrip u = ""
    · rw [tryHandler_of_empty sim entry u st h]
    · simp [tryHandler, h]
  · intro sim entry n m u st hn hm hu
    rw [submitHandler_of_valid sim entry n m u st hn hm hu]

/-- Witness for C3 at a concrete valid Submit. -/
theorem try_submit_scores_frame_witness :
    pyStrip "a" ≠ "" ∧ pyStrip "1" ≠ "" ∧ pyStrip "x" ≠ "" ∧
    (submitHandler simDemo ⟨"j", "b", []⟩ "a" "1" "x" initState).1.scores
      = initState.scores ++ [submittedScore simDemo ⟨"j", "b", []⟩ "x" initState] :=
  ⟨by decide, by decide, by decide,
   try_submit_scores_frame.2 simDemo ⟨"j", "b", []⟩ "a" "1" "x" initState
     (by decide) (by decide) (by decide)⟩

/-- C8: a valid Submit consumes the cached score when the state is Scored
(without recomputing — the result does not depend on the similarity function),
computes a fresh score when the state is Idle, and in both cases resets
`lastScore` and `lastVariant` to empty. -/
theorem submit_consume_or_fresh (sim sim2 : String → String → ℚ) (entry : Entry)
    (n m u : String) (st : SessionState)
    (hn : pyStrip n ≠ "") (hm : pyStrip m ≠ "") (hu : pyStrip u ≠ "") :
    (∀ s, st.last_score = some s →
       (submitHandler sim entry n m u st).1.scores = st.scores ++ [s] ∧
       submitHandler sim2 entry n m u st = submitHandler sim entry n m u st) ∧
    (st.last_score = none →
       (submitHandler sim entry n m u st).1.scores = st.scores
         ++ [(compute_score_and_best sim u (entry.english :: entry.alternatives)).1]) ∧
    (submitHandler sim entry n m u st).1.last_score = none ∧
    (submitHandler sim entry n m u st).1.last_variant = none := by
  rw [submitHandler_of_valid sim entry n m u st hn hm hu,
      submitHandler_of_valid sim2 entry n m u st hn hm hu]
  refine ⟨?_, ?_, rfl, rfl⟩
  · intro s hs
    simp [submittedScore, hs]
  · intro hs
    simp [submittedScore, hs]

/-- Witness for C8 at a concrete Idle state. -/
theorem submit_consume_or_fresh_witness :
    initState.last_score = none ∧
    (submitHandler simDemo ⟨"j", "b", []⟩ "a" "1" "x" initState).1.scores
      = initState.scores
        ++ [(compute_score_and_best simDemo "x"
              ((⟨"j", "b", []⟩ : Entry).english :: (⟨"j", "b", []⟩ : Entry).alternatives)).1] :=
  ⟨rfl,
   (submit_consume_or_fresh simDemo simDemo ⟨"j", "b", []⟩ "a" "1" "x" initState
      (by decide) (by decide) (by decide)).2.1 rfl⟩

/-- C5: the same constant 0.80 drives both labelings: the Try banner is the
success banner exactly when bestScore is at least THRESHOLD, the Finish record
says "Pass" exactly when the session average is at least THRESHOLD, and
THRESHOLD is 0.80 = 4/5. -/
theorem threshold_consistent :
    THRESHOLD = 4 / 5 ∧
    (∀ sim entry u st b, (tryHandler sim entry u st).2 = some b →
       (b = true ↔ THRESHOLD ≤ (compute_score_and_best sim u
          (entry.english :: entry.alternatives)).1)) ∧
    (∀ n m ts st r, (finishHandler n m ts SinkResult.ok st).2 = some r →
       (r.passFail = "Pass" ↔ THRESHOLD ≤ st.scores.sum / (st.scores.length : ℚ))) := by
  refine ⟨by norm_num [THRESHOLD], ?_, ?_⟩
  · intro sim entry u st b hb
    by_cases h : pyStrip u = ""
    · rw [tryHandler_of_empty sim entry u st h] at hb
      simp at hb
    · simp only [tryHandler, h, if_false] at hb
      have hb2 : b = decide (THRESHOLD ≤ (compute_score_and_best sim u
          (entry.english :: entry.alternatives)).1) := by
        simpa using hb.symm
      subst hb2
      simp
  · intro n m ts st r hr
    obtain ⟨hn, hm, hs, -⟩ := finishHandler_some n m ts SinkResult.ok st r hr
    rw [finishHandler_ok n m ts st hn hm hs] at hr
    have hr2 := Option.some.inj hr
    rw [← hr2]
    by_cases hp : THRESHOLD ≤ st.scores.sum / (st.scores.length : ℚ)
    · simp [hp]
    · simp [hp]

/-- Witness for C5 at a concrete Try whose score clears the threshold. -/
theorem threshold_consistent_witness :
    ((tryHandler simDemo ⟨"j", "b", []⟩ "x" initState).2 = some true) ∧
    (true = true ↔ THRESHOLD ≤ (compute_score_and_best simDemo "x"
       ((⟨"j", "b", []⟩ : Entry).english :: (⟨"j", "b", []⟩ : Entry).alternatives)).1) :=
  ⟨by rw [try_demo_eval],
   threshold_consistent.2.1 simDemo ⟨"j", "b", []⟩ "x" initState true (by rw [try_demo_eval])⟩

/-- C9: a whitespace-only string strips to empty, so Try, Submit, and Finish
reject it as if it were empty even though the string is non-empty: a
whitespace-only candidate text rejects Try and Submit, and a whitespace-only
identity field rejects Submit and Finish, in every case leaving the state
unchanged and appending nothing. -/
theorem whitespace_only_rejected (s : String) (_hne : s ≠ "")
    (hws : ∀ c ∈ s.data, isPySpace c = true) :
    pyStrip s = "" ∧
    (∀ sim entry st, tryHandler sim entry s st = (st, none)) ∧
    (∀ sim entry m u st, submitHandler sim entry s m u st = (st, none)) ∧
    (∀ sim entry n u st, submitHandler sim entry n s u st = (st, none)) ∧
    (∀ sim entry n m st, submitHandler sim entry n m s st = (st, none)) ∧
    (∀ m ts sink st, finishHandler s m ts sink st = (st, none)) ∧
    (∀ n ts sink st, finishHandler n s ts sink st = (st, none)) := by
  have hstrip : pyStrip s = "" := by
    have h1 : s.data.dropWhile isPySpace = [] :=
      List.dropWhile_eq_nil_iff.mpr hws
    rw [pyStrip, h1]
    rfl
  refine ⟨hstrip, ?_, ?_, ?_, ?_, ?_, ?_⟩
  · intro sim entry st
    exact tryHandler_of_empty sim entry s st hstrip
  · intro sim entry m u st
    exact submitHandler_of_invalid sim entry s m u st (Or.inl hstrip)
  · intro sim entry n u st
    exact submitHandler_of_invalid sim entry n s u st (Or.inr (Or.inl hstrip))
  · intro sim entry n m st
    exact submitHandler_of_invalid sim entry n m s st (Or.inr (Or.inr hstrip))
  · intro m ts sink st
    exact finishHandler_of_invalid s m ts sink st (Or.inl hstrip)
  · intro n ts sink st
    exact finishHandler_of_invalid n s ts sink st (Or.inr (Or.inl hstrip))

/-- Witness for C9 on the three-space string. -/
theorem whitespace_only_rejected_witness :
    ("   " : String) ≠ "" ∧ (∀ c ∈ ("   " : String).data, isPySpace c = true) ∧
    pyStrip "   " = "" ∧
    tryHandler simDemo ⟨"j", "b", []⟩ "   " initState = (initState, none) :=
  ⟨by decide, by decide,
   (whitespace_only_rejected "   " (by decide) (by decide)).1,
   (whitespace_only_rejected "   " (by decide) (by decide)).2.1 simDemo ⟨"j", "b", []⟩ initState⟩

lemma japanese_to_entry_foldl (ts : List Entry) (m : String → Option Entry) (k : String) :
    ts.foldl (fun m e => fun k => if k = e.japanese then some e else m k) m k =
      match ts.reverse.find? (fun e => decide (e.japanese = k)) with
      | some e => some e
      | none => m k := by
  induction ts generalizing m with
  | nil => simp
  | cons e rest ih =>
    rw [List.foldl_cons, ih]
    rw [List.reverse_cons, List.find?_append]
    cases h : rest.reverse.find? (fun e => decide (e.japanese = k)) with
    | some x => simp
    | none =>
      simp only [Option.none_or]
      by_cases he : e.japanese = k
      · simp [List.find?_cons, he]
      · have hk : ¬(k = e.japanese) := fun hc => he hc.symm
        simp [List.find?_cons, he, hk]

/-- C10: the lookup map built at load time keeps the later record when two
entries share the same Japanese key: looking up a key returns the first match
in the reversed list (equivalently, the last match in file order), and in
particular an entry whose key has no later occurrence is the one returned. -/
theorem japanese_to_entry_last_wins (ts : List Entry) (k : String) :
    japanese_to_entry ts k = ts.reverse.find? (fun e => decide (e.japanese = k)) ∧
    (∀ e, japanese_to_entry ts k = some e → e ∈ ts ∧ e.japanese = k) ∧
    (∀ pre post e, (∀ x ∈ post, x.japanese ≠ e.japanese) →
       japanese_to_entry (pre ++ e :: post) e.japanese = some e) := by
  have hrev : ∀ ts2 : List Entry, ∀ k2 : String, japanese_to_entry ts2 k2
      = ts2.reverse.find? (fun e => decide (e.japanese = k2)) := by
    intro ts2 k2
    rw [japanese_to_entry, japanese_to_entry_foldl]
    cases h : ts2.reverse.find? (fun e => decide (e.japanese = k2)) <;> simp
  refine ⟨hrev ts k, ?_, ?_⟩
  · intro e he
    rw [hrev ts k] at he
    refine ⟨List.mem_reverse.mp (List.mem_of_find?_eq_some he), ?_⟩
    have := List.find?_some he
    simpa using this
  · intro pre post e hpost
    rw [hrev (pre ++ e :: post) e.japanese]
    rw [List.reverse_append, List.reverse_cons, List.find?_append, List.find?_append]
    have hnone : post.reverse.find? (fun x => decide (x.japanese = e.japanese)) = none := by
      rw [List.find?_eq_none]
      intro x hx
      simpa using hpost x (List.mem_reverse.mp hx)
    rw [hnone]
    simp [List.find?_cons]

/-- Witness for C10 on two entries sharing the key "j": the later one wins. -/
theorem japanese_to_entry_last_wins_witness :
    (∀ x ∈ ([] : List Entry), x.japanese ≠ (⟨"j", "b", []⟩ : Entry).japanese) ∧
    japanese_to_entry ([⟨"j", "a", []⟩] ++ (⟨"j", "b", []⟩ : Entry) :: [])
        (⟨"j", "b", []⟩ : Entry).japanese
      = some ⟨"j", "b", []⟩ :=
  ⟨by simp,
   (japanese_to_entry_last_wins ([⟨"j", "a", []⟩] ++ (⟨"j", "b", []⟩ : Entry) :: [])
      (⟨"j", "b", []⟩ : Entry).japanese).2.2
     [⟨"j", "a", []⟩] [] ⟨"j", "b", []⟩ (by simp)⟩



lemma stepAcc_inv (sim : String → String → ℚ) (acc : RunAcc) (e : Event)
    (h : accInv acc) : accInv (stepAcc sim acc e) := by
  obtain ⟨h1, h2, h3⟩ := h
  cases e with
  | tryE entry u =>
    by_cases hu : pyStrip u = ""
    · simp [stepAcc, tryHandler_of_empty sim entry u acc.st hu, accInv, h1, h2, h3]
    · simp [stepAcc, tryHandler, hu, accInv, h1, h2, h3]
  | submitE entry n m u =>
    by_cases hnm : pyStrip n = "" ∨ pyStrip m = ""
    · simp [stepAcc, submitHandler_of_invalid sim entry n m u acc.st (by tauto),
            accInv, h1, h2, h3]
    · push_neg at hnm
      by_cases hu : pyStrip u = ""
      · simp [stepAcc, submitHandler_of_invalid sim entry n m u acc.st (by tauto),
              accInv, h1, h2, h3]
      · simp [stepAcc, submitHandler_of_valid sim entry n m u acc.st hnm.1 hnm.2 hu,
              accInv, h1, h2, h3]
  | finishE n m ts sink =>
    by_cases hnm : pyStrip n = "" ∨ pyStrip m = ""
    · simp [stepAcc, finishHandler_of_invalid n m ts sink acc.st (by tauto),
            accInv, h1, h2, h3]
    · push_neg at hnm
      by_cases hsc : acc.st.scores = []
      · simp [stepAcc, finishHandler_of_invalid n m ts sink acc.st (by tauto),
              accInv, h1, h2, h3]
      · cases sink with
        | unavailable =>
          simp [stepAcc, finishHandler_fail n m ts SinkResult.unavailable acc.st (Or.inl rfl),
                accInv, h1, h2, h3]
        | raises =>
          simp [stepAcc, finishHandler_fail n m ts SinkResult.raises acc.st (Or.inr rfl),
                accInv, h1, h2, h3]
        | ok =>
          simp [stepAcc, finishHandler_ok n m ts acc.st hnm.1 hnm.2 hsc, accInv]

lemma foldl_stepAcc_inv (sim : String → String → ℚ) (es : List Event) (acc : RunAcc)
    (h : accInv acc) : accInv (es.foldl (stepAcc sim) acc) := by
  induction es generalizing acc with
  | nil => exact h
  | cons e es ih => exact ih (stepAcc sim acc e) (stepAcc_inv sim acc e h)

lemma runSession_inv (sim : String → String → ℚ) (es : List Event) :
    accInv (runSession sim es) :=
  foldl_stepAcc_inv sim es initAcc ⟨rfl, rfl, rfl⟩

lemma compute_demo_eval : compute_score_and_best simDemo "x" ["b"] = (2, "b") := by
  simp [compute_score_and_best, listMax, simDemo, List.findIdx_cons]



lemma runSession_demo_eval :
    runSession simDemo [Event.submitE ⟨"j", "b", []⟩ "a" "1" "x"] =
      { st := stDemo2, tries := 0, submits := 1, vals := [2] } := by
  rw [runSession, List.foldl_cons, List.foldl_nil]
  simp only [stepAcc]
  rw [submitHandler_of_valid simDemo ⟨"j", "b", []⟩ "a" "1" "x" initAcc.st
        (by decide) (by decide) (by decide)]
  simp [initAcc, initState, stDemo2, submittedScore, compute_demo_eval]

/-- C6: in every reachable session state, the length of `scores` is at most
the number of accepted submit clicks of the current session and
`attempted_questions` equals the number of accepted try clicks; and the
equality between the length of `scores` and `attempted_questions` is not
guaranteed (a single submit without a prior try violates it). -/
theorem scores_length_counts :
    (∀ sim es, (runSession sim es).st.scores.length ≤ (runSession sim es).submits ∧
               (runSession sim es).st.attempted_questions = (runSession sim es).tries) ∧
    (∃ sim es, (runSession sim es).st.scores.length
                 ≠ (runSession sim es).st.attempted_questions) := by
  constructor
  · intro sim es
    obtain ⟨h1, h2, h3⟩ := runSession_inv sim es
    exact ⟨le_of_eq (by rw [h1, h3]), h2⟩
  · refine ⟨simDemo, [Event.submitE ⟨"j", "b", []⟩ "a" "1" "x"], ?_⟩
    rw [runSession_demo_eval]
    simp [stDemo2]

lemma char_digit_ne_dot (d : ℕ) (hd : d < 10) : Char.ofNat (48 + d) ≠ '.' := by
  interval_cases d <;> decide

lemma natReprD_no_dot (x : ℕ) : '.' ∉ (natReprD x).data := by
  have h : ∀ fuel n, ∀ c ∈ natReprAux fuel n, ∃ d, d < 10 ∧ c = Char.ofNat (48 + d) := by
    intro fuel
    induction fuel with
    | zero => intro n c hc; simp [natReprAux] at hc
    | succ fuel ih =>
      intro n c hc
      rw [natReprAux] at hc
      by_cases hn : n < 10
      · rw [if_pos hn] at hc
        exact ⟨n % 10, Nat.mod_lt n (by norm_num), by rw [List.mem_singleton.mp hc]; rfl⟩
      · rw [if_neg hn] at hc
        rcases List.mem_append.mp hc with h1 | h1
        · exact ih (n / 10) c h1
        · exact ⟨n % 10, Nat.mod_lt n (by norm_num), by rw [List.mem_singleton.mp h1]; rfl⟩
  intro hc
  obtain ⟨d, hd, hcd⟩ := h (x + 1) x '.' hc
  exact char_digit_ne_dot d hd hcd.symm

lemma formatFixed4_shape (q : ℚ) :
    ∃ ip fp : String, formatFixed4 q = ip ++ "." ++ fp ∧ fp.length = 4 ∧ '.' ∉ ip.data := by
  refine ⟨(if roundHalfEven (q * 10000) < 0 then "-" else "")
            ++ natReprD ((roundHalfEven (q * 10000)).natAbs / 10000),
          ⟨[digitChar10 ((roundHalfEven (q * 10000)).natAbs / 1000),
            digitChar10 ((roundHalfEven (q * 10000)).natAbs / 100),
            digitChar10 ((roundHalfEven (q * 10000)).natAbs / 10),
            digitChar10 ((roundHalfEven (q * 10000)).natAbs)]⟩, rfl, rfl, ?_⟩
  by_cases hneg : roundHalfEven (q * 10000) < 0
  · rw [if_pos hneg]
    show '.' ∉ '-' :: (natReprD ((roundHalfEven (q * 10000)).natAbs / 10000)).data
    intro hc
    rcases List.mem_cons.mp hc with h | h
    · exact absurd h (by decide)
    · exact natReprD_no_dot _ h
  · rw [if_neg hneg]
    show '.' ∉ (natReprD ((roundHalfEven (q * 10000)).natAbs / 10000)).data
    exact natReprD_no_dot _

/-- C4: when Finish succeeds after a trace of events, the record's
averageScore is the rendering of the arithmetic mean of exactly the values the
session's accepted submits appended to `scores`, in order, and the rendering
has an integer part, a dot, and exactly 4 fractional digits. -/
theorem finish_average_is_mean (sim : String → String → ℚ) (es : List Event)
    (n m ts : String) (r : SubmissionRecord)
    (h : (finishHandler n m ts SinkResult.ok (runSession sim es).st).2 = some r) :
    (runSession sim es).st.scores = (runSession sim es).vals ∧
    r.averageScore = formatFixed4 ((runSession sim es).vals.sum
      / ((runSession sim es).vals.length : ℚ)) ∧
    ∃ ip fp : String, r.averageScore = ip ++ "." ++ fp ∧ fp.length = 4 ∧ '.' ∉ ip.data := by
  obtain ⟨hn, hm, hs, -⟩ :=
    finishHandler_some n m ts SinkResult.ok (runSession sim es).st r h
  obtain ⟨h1, h2, h3⟩ := runSession_inv sim es
  rw [finishHandler_ok n m ts (runSession sim es).st hn hm hs] at h
  have hr := (Option.some.inj h).symm
  refine ⟨h1, ?_, ?_⟩
  · rw [hr, ← h1]
  · rw [hr]
    exact formatFixed4_shape _

lemma formatFixed4_two : formatFixed4 (2 : ℚ) = "2.0000" := by
  have h1 : roundHalfEven ((2:ℚ) * 10000) = 20000 := by
    rw [roundHalfEven]
    norm_num
  rw [formatFixed4, h1]
  norm_num [natReprD, natReprAux, digitChar10]
  decide

lemma finish_demo2_eval : finishHandler "a" "1" "t" SinkResult.ok stDemo2 =
    (initState, some { timestamp := "t", learnerName := "a", learnerId := "1",
                       averageScore := "2.0000", passFail := "Pass", questionCount := 1 }) := by
  rw [finishHandler_ok "a" "1" "t" stDemo2 (by decide) (by decide) (by simp [stDemo2])]
  have havg : stDemo2.scores.sum / (stDemo2.scores.length : ℚ) = (2:ℚ) := by
    simp [stDemo2]
  rw [havg, formatFixed4_two, if_pos (by norm_num [THRESHOLD] : THRESHOLD ≤ (2:ℚ))]
  simp [stDemo2, initState]

/-- Witness for C4 on the one-submit trace: the recorded average is "2.0000".  -/
theorem finish_average_is_mean_witness :
    ((finishHandler "a" "1" "t" SinkResult.ok
        (runSession simDemo [Event.submitE ⟨"j", "b", []⟩ "a" "1" "x"]).st).2
      = some { timestamp := "t", learnerName := "a", learnerId := "1",
               averageScore := "2.0000", passFail := "Pass", questionCount := 1 }) ∧
    ((runSession simDemo [Event.submitE ⟨"j", "b", []⟩ "a" "1" "x"]).st.scores
       = (runSession simDemo [Event.submitE ⟨"j", "b", []⟩ "a" "1" "x"]).vals ∧
     ({ timestamp := "t", learnerName := "a", learnerId := "1",
        averageScore := "2.0000", passFail := "Pass",
        questionCount := 1 } : SubmissionRecord).averageScore
       = formatFixed4 ((runSession simDemo [Event.submitE ⟨"j", "b", []⟩ "a" "1" "x"]).vals.sum
           / ((runSession simDemo [Event.submitE ⟨"j", "b", []⟩ "a" "1" "x"]).vals.length : ℚ)) ∧
     ∃ ip fp : String,
       ({ timestamp := "t", learnerName := "a", learnerId := "1",
          averageScore := "2.0000", passFail := "Pass",
          questionCount := 1 } : SubmissionRecord).averageScore
         = ip ++ "." ++ fp ∧ fp.length = 4 ∧ '.' ∉ ip.data) :=
  have hdemo : (finishHandler "a" "1" "t" SinkResult.ok
      (runSession simDemo [Event.submitE ⟨"j", "b", []⟩ "a" "1" "x"]).st).2
      = some { timestamp := "t", learnerName := "a", learnerId := "1",
               averageScore := "2.0000", passFail := "Pass", questionCount := 1 } := by
    rw [runSession_demo_eval]
    rw [finish_demo2_eval]
  ⟨hdemo, finish_average_is_mean simDemo [Event.submitE ⟨"j", "b", []⟩ "a" "1" "x"]
      "a" "1" "t" _ hdemo⟩
